import Mathlib

/-!
# Verification of `scripts/pipeline/select_and_register.py`

Shallow embedding of the model-selection and promotion workflow of the
Bus-delay-prediction repository, together with proofs about the
selection-and-promotion decision procedure (`select_model`,
`register_model`).

Modelling conventions:
* metric values (RMSE) are rationals (`ℚ`) rather than IEEE floats — the
  decision logic only compares them with `<`/`≤`;
* the MLflow tracking service (runs, model registry) is explicit state:
  the registry versions of the one model name involved, and the set of
  runs stored in the tracking service;
* Python exceptions are an explicit `PyError` error type and fallible
  code returns `Except PyError _`;
* model fitting itself (xgboost / scikit-learn) is an external
  capability; it is represented by an oracle giving, for a model family
  and a parameter set, the validation and test RMSE that the fitted
  model achieves.  The explicit `mlflow.set_tag` / `mlflow.log_metric`
  calls of the source are modelled exactly; effects internal to the
  external autologging library are outside the embedding.
-/

deriving instance DecidableEq for Except

namespace SelectAndRegister

/-- Python exceptions raised by the pipeline code or by the MLflow client.
`restException code` models `mlflow.exceptions.RestException` (any
REST-layer failure of the tracking service, carrying an error code such
as `RESOURCE_DOES_NOT_EXIST`); `mlflowOther` models any other
tracking-service exception (e.g. a connection failure surfacing as a
non-REST `MlflowException`); `keyError` a Python `KeyError`;
`indexError` a Python `IndexError`. -/
inductive PyError where
  | restException (code : String)
  | mlflowOther (msg : String)
  | keyError (key : String)
  | indexError
  deriving DecidableEq, Repr

/-- Whether an exception is (an instance of) `mlflow.exceptions.RestException`:
this is exactly the class caught by `register_model`'s `except` clause. -/
def PyError.isRest : PyError → Bool
  | .restException _ => true
  | _ => false

/-- `run.info` of an MLflow `Run`: the run identifier. -/
structure RunInfo where
  run_id : String
  deriving DecidableEq, Repr

/-- `run.data` of an MLflow `Run`: tags, logged parameters and logged
numeric metrics, each a string-keyed mapping (association lists). -/
structure RunData where
  tags : List (String × String)
  params : List (String × String)
  metrics : List (String × ℚ)
  deriving DecidableEq, Repr

/-- An MLflow `Run` record. -/
structure Run where
  info : RunInfo
  data : RunData
  deriving DecidableEq, Repr

/-- `run.data.metrics[name]` as a partial lookup (a Python dict access
raises `KeyError` when absent; callers turn `none` into that error). -/
def Run.getMetric (r : Run) (name : String) : Option ℚ :=
  r.data.metrics.lookup name

/-- Registry stage labels of a model version. -/
inductive Stage where
  | none
  | staging
  | production
  | archived
  deriving DecidableEq, Repr

/-- A version of the registered model: its number, current stage label,
the run that produced it, the artifact URI it is backed by, and its tags. -/
structure ModelVersion where
  version : Nat
  stage : Stage
  run_id : String
  source : String
  tags : List (String × String)
  deriving DecidableEq, Repr

/-- The tracking-service state visible to `register_model`: the list of
registered versions of the model name at hand (in order of registration,
so version numbers are increasing along the list), and the runs stored
by the tracking service (for `client.get_run`). -/
@[ext]
structure TrackingState where
  versions : List ModelVersion
  runs : List Run
  deriving DecidableEq, Repr

/-- `client.get_latest_versions(model_name, ['Production'])`: raises a
`RESOURCE_DOES_NOT_EXIST` REST exception when the model name has no
registered version at all; otherwise answers the versions currently in
the `Production` stage (the caller uses emptiness and the last element,
so returning the whole stage slice is faithful). -/
def get_latest_versions (versions : List ModelVersion) :
    Except PyError (List ModelVersion) :=
  if versions = [] then
    .error (.restException "RESOURCE_DOES_NOT_EXIST")
  else
    .ok (versions.filter (fun v => v.stage = Stage.production))

/-- `client.get_run(run_id)`: look the run up in the tracking service. -/
def get_run (st : TrackingState) (run_id : String) : Except PyError Run :=
  match st.runs.find? (fun r => r.info.run_id = run_id) with
  | Option.none => .error (.restException "RESOURCE_DOES_NOT_EXIST")
  | some r => .ok r

/-- The version number MLflow assigns to a newly registered version:
one more than the largest existing version number. -/
def nextVersion (versions : List ModelVersion) : Nat :=
  (versions.foldr (fun v acc => max v.version acc) 0) + 1

/-- `mlflow.register_model(model_uri, name, tags)`: append a fresh
version (stage label `None`) backed by `runs:/<run_id>/model` and
carrying the given tags; answer the new version record. -/
def registerVersion (st : TrackingState) (r : Run) :
    TrackingState × ModelVersion :=
  let v : ModelVersion :=
    { version := nextVersion st.versions
      stage := Stage.none
      run_id := r.info.run_id
      source := "runs:/" ++ r.info.run_id ++ "/model"
      tags := r.data.tags }
  ({ st with versions := st.versions ++ [v] }, v)

/-- `client.transition_model_version_stage(name, version, stage)`:
set the stage label of the version with the given number. -/
def transitionStage (st : TrackingState) (version : Nat) (stage : Stage) :
    TrackingState :=
  { st with
    versions := st.versions.map
      (fun v => if v.version = version then { v with stage := stage } else v) }

/-- `register_model(run, mlflow_tracking_uri, model_name)` from
`scripts/pipeline/select_and_register.py` (lines 114-149).

`fault`, when `some e`, injects a tracking-service failure into the
`client.get_latest_versions` call of the `try` block (`none` is normal
operation, in which the lookup is answered from `st`).  The `except
mlflow.exceptions.RestException` clause recovers exactly the REST-class
exceptions, setting `production = []`; any other exception propagates.
On the promotion path the candidate is registered and the fresh version
transitioned to `Staging`; otherwise the state is untouched.  The result
pairs the final tracking state with the boolean return value. -/
def register_model (run : Run) (st : TrackingState) (fault : Option PyError) :
    Except PyError (TrackingState × Bool) := do
  -- try: production = client.get_latest_versions(...)
  -- except mlflow.exceptions.RestException: production = []
  let lookup : Except PyError (List ModelVersion) :=
    match fault with
    | some e => .error e
    | Option.none => get_latest_versions st.versions
  let production ← match lookup with
    | .error e => if e.isRest then .ok ([] : List ModelVersion) else .error e
    | .ok vs => .ok vs
  -- if production: compute the production baseline's test_rmse
  -- if not production or run.data.metrics['test_rmse'] < production_rmse:
  let promote ← match production.getLast? with
    | Option.none => .ok true
    | some latest => do
        let production_run ← get_run st latest.run_id
        let production_rmse ← match production_run.getMetric "test_rmse" with
          | Option.none => .error (.keyError "test_rmse")
          | some q => .ok q
        let candidate_rmse ← match run.getMetric "test_rmse" with
          | Option.none => .error (.keyError "test_rmse")
          | some q => .ok q
        .ok (candidate_rmse < production_rmse : Bool)
  if promote then
    let rv := registerVersion st run
    let st2 := transitionStage rv.1 rv.2.version Stage.staging
    return (st2, true)
  else
    return (st, false)

/-! ## Candidate evaluation (`select_model` and the training routines) -/

/-- The external training capability: given a model family name and the
(string-logged) parameter set of a source run, the validation RMSE and
test RMSE that the re-trained model achieves on the fixed splits.
Model fitting is deterministic here (fixed seeds / `random_state` in the
source), so a function is faithful. -/
def Oracle : Type := String → List (String × String) → ℚ × ℚ

/-- `train_and_log_xgboost(input_dir, params)` (lines 29-73): starts a
fresh tracking run (whose identifier the tracking service assigns), sets
the tag `model = 'xgboost-regressor'`, trains, and logs the metrics
`validation_rmse` then `test_rmse`.  The resulting `Run` record is the
run the call adds to the active (selection) experiment. -/
def train_and_log_xgboost (oracle : Oracle) (fresh_id : String)
    (params : List (String × String)) : Run :=
  let r := oracle "xgboost-regressor" params
  { info := { run_id := fresh_id }
    data :=
      { tags := [("model", "xgboost-regressor")]
        params := params
        metrics := [("validation_rmse", r.1), ("test_rmse", r.2)] } }

/-- `train_and_log_train_random_forest_regressor(input_dir, params)`
(lines 76-105): same shape for the random-forest family. -/
def train_and_log_train_random_forest_regressor (oracle : Oracle)
    (fresh_id : String) (params : List (String × String)) : Run :=
  let r := oracle "random-forest-regressor" params
  { info := { run_id := fresh_id }
    data :=
      { tags := [("model", "random-forest-regressor")]
        params := params
        metrics := [("validation_rmse", r.1), ("test_rmse", r.2)] } }

/-- The `TRAIN_AND_LOG_FUNC` dispatch dictionary (lines 108-111). -/
def TRAIN_AND_LOG_FUNC :
    List (String × (Oracle → String → List (String × String) → Run)) :=
  [("xgboost-regressor", train_and_log_xgboost),
   ("random-forest-regressor", train_and_log_train_random_forest_regressor)]

/-- The sort key the tracking service uses for
`order_by=["metrics.<m> ASC"]`: the run's value of metric `m`, with runs
missing the metric ordered last (`⊤`). -/
def runKey (m : String) (r : Run) : WithTop ℚ :=
  match r.getMetric m with
  | Option.none => ⊤
  | some q => (q : WithTop ℚ)

/-- The ascending-by-metric-`m` order on runs used by `search_runs`. -/
def runLE (m : String) (a b : Run) : Prop :=
  runKey m a ≤ runKey m b

instance (m : String) : DecidableRel (runLE m) := fun a b =>
  inferInstanceAs (Decidable (runKey m a ≤ runKey m b))

instance (m : String) : IsTotal Run (runLE m) :=
  ⟨fun a b => le_total (runKey m a) (runKey m b)⟩

instance (m : String) : IsTrans Run (runLE m) :=
  ⟨fun _ _ _ h h' => le_trans h h'⟩

/-- `client.search_runs(experiment_ids=…, max_results=n,
order_by=["metrics.<m> ASC"])`: the experiment's runs sorted ascending
by metric `m` (missing metric sorts last; further ties are broken by the
service's secondary ordering, here the stability of the sort), truncated
to at most `n` results. -/
def searchRuns (m : String) (n : Nat) (runs : List Run) : List Run :=
  (List.insertionSort (runLE m) runs).take n

/-- The per-candidate dispatch of `select_model`'s loop body:
`TRAIN_AND_LOG_FUNC[run.data.tags['model']]` — `none` when either dict
access would raise a `KeyError`. -/
def dispatch (r : Run) :
    Option (Oracle → String → List (String × String) → Run) :=
  (r.data.tags.lookup "model").bind (fun tag => TRAIN_AND_LOG_FUNC.lookup tag)

/-- The `for run in runs:` loop of `select_model` (lines 178-179):
evaluate each top run in order, collecting the freshly created runs of
the selection experiment; a failed dict access aborts the loop with the
corresponding `KeyError`.  `fresh` supplies the run identifiers the
tracking service assigns (the `i`-th created run gets `fresh i`). -/
def evalCandidates (oracle : Oracle) (fresh : Nat → String) :
    Nat → List Run → Except PyError (List Run)
  | _, [] => .ok []
  | i, r :: rs => do
      let tag ← match r.data.tags.lookup "model" with
        | Option.none => .error (.keyError "model")
        | some t => .ok t
      let f ← match TRAIN_AND_LOG_FUNC.lookup tag with
        | Option.none => .error (.keyError tag)
        | some f => .ok f
      let new_run := f oracle (fresh i) r.data.params
      let rest ← evalCandidates oracle fresh (i + 1) rs
      return new_run :: rest

/-- `select_model(input_dir, number_top_runs, …)` (lines 152-190).

`hpoRuns` are the runs of the source hyperparameter-search experiment,
`selectRuns` the runs already present in the destination (selection)
experiment.  The result pairs the selection experiment's final run list
with the returned best run.  `search_runs(..., max_results=1,
order_by=["metrics.test_rmse ASC"])[0]` raises an `IndexError` when the
selection experiment is empty. -/
def select_model (hpoRuns : List Run) (number_top_runs : Nat)
    (selectRuns : List Run) (oracle : Oracle) (fresh : Nat → String) :
    Except PyError (List Run × Run) := do
  let runs := searchRuns "rmse" number_top_runs hpoRuns
  let new_runs ← evalCandidates oracle fresh 0 runs
  let all := selectRuns ++ new_runs
  let best ← match searchRuns "test_rmse" 1 all with
    | [] => .error .indexError
    | b :: _ => .ok b
  return (all, best)

/-! ## Statement helpers -/

/-- The production version `register_model` compares against: the last
element of the `Production` slice of the version list (the code's
`production[-1]`). -/
def productionBaseline (st : TrackingState) : Option ModelVersion :=
  (st.versions.filter (fun v => v.stage = Stage.production)).getLast?

/-- The new version record `register_model` leaves behind on the
promotion path: the freshly registered version after its transition to
`Staging`. -/
def stagedVersion (st : TrackingState) (run : Run) : ModelVersion :=
  { version := nextVersion st.versions
    stage := Stage.staging
    run_id := run.info.run_id
    source := "runs:/" ++ run.info.run_id ++ "/model"
    tags := run.data.tags }

/-! ## Helper lemmas -/

lemma version_le_fold (vs : List ModelVersion) (v : ModelVersion) (h : v ∈ vs) :
    v.version ≤ vs.foldr (fun v acc => max v.version acc) 0 := by
  induction vs with
  | nil => cases h
  | cons a tl ih =>
      rcases List.mem_cons.mp h with rfl | htl
      · exact le_max_left _ _
      · exact le_trans (ih htl) (le_max_right _ _)

lemma version_lt_nextVersion (vs : List ModelVersion) (v : ModelVersion)
    (h : v ∈ vs) : v.version < nextVersion vs :=
  Nat.lt_succ_of_le (version_le_fold vs v h)

/-- Registering a candidate and then transitioning the fresh version to
`Staging` appends exactly `stagedVersion st run` and leaves every
pre-existing version untouched. -/
lemma transition_map_id (vs : List ModelVersion) (n : Nat) (s : Stage)
    (h : ∀ v ∈ vs, v.version ≠ n) :
    vs.map (fun v => if v.version = n then { v with stage := s } else v) = vs := by
  induction vs with
  | nil => rfl
  | cons a tl ih =>
      simp only [List.map_cons, if_neg (h a (List.mem_cons_self a tl)),
        ih (fun v hv => h v (List.mem_cons_of_mem a hv))]

/-- Registering a candidate and then transitioning the fresh version to
`Staging` appends exactly `stagedVersion st run` and leaves every
pre-existing version untouched. -/
lemma register_transition_versions (st : TrackingState) (run : Run) :
    (transitionStage (registerVersion st run).1 (registerVersion st run).2.version
        Stage.staging).versions = st.versions ++ [stagedVersion st run] := by
  have hne : ∀ v ∈ st.versions, v.version ≠ nextVersion st.versions :=
    fun v hv => Nat.ne_of_lt (version_lt_nextVersion st.versions v hv)
  simp only [registerVersion, transitionStage, List.map_append,
    transition_map_id st.versions _ _ hne, List.map_cons, List.map_nil, if_pos rfl]
  rfl

/-- The promotion path's whole state effect: the fresh version, already
transitioned to `Staging`, appended to the version list. -/
lemma register_transition_state (st : TrackingState) (run : Run) :
    transitionStage (registerVersion st run).1 (registerVersion st run).2.version
        Stage.staging
      = { st with versions := st.versions ++ [stagedVersion st run] } :=
  TrackingState.ext (register_transition_versions st run) rfl

/-- C4 -/
theorem register_model_false_noop (run : Run) (st : TrackingState)
    (fault : Option PyError) (st' : TrackingState)
    (h : register_model run st fault = Except.ok (st', false)) : st' = st := by
  unfold register_model at h
  simp only [bind, Except.bind, pure, Except.pure] at h
  repeat' split at h
  all_goals simp_all

/-- C5 -/
theorem register_model_only_staging (run : Run) (st : TrackingState)
    (fault : Option PyError) (st' : TrackingState) (b : Bool)
    (h : register_model run st fault = Except.ok (st', b)) :
    st'.versions = st.versions ∨
      ∃ v, v.stage = Stage.staging ∧ st'.versions = st.versions ++ [v] := by
  unfold register_model at h
  simp only [bind, Except.bind, pure, Except.pure] at h
  repeat' split at h
  all_goals try exact Except.noConfusion h
  all_goals simp only [Except.ok.injEq, Prod.mk.injEq] at h
  all_goals
    first
      | exact Or.inr ⟨stagedVersion st run, rfl,
          by rw [← h.1, register_transition_versions]⟩
      | exact Or.inl (by rw [← h.1])

/-- C3 -/
theorem register_model_no_baseline (run : Run) (st : TrackingState)
    (h : ∀ v ∈ st.versions, v.stage ≠ Stage.production) :
    register_model run st Option.none =
      Except.ok ({ st with versions := st.versions ++ [stagedVersion st run] }, true) := by
  have hstate := register_transition_state st run
  by_cases hnil : st.versions = []
  · simp only [register_model, bind, Except.bind, pure, Except.pure,
      get_latest_versions, hnil, if_pos rfl, PyError.isRest, List.getLast?_nil]
    rw [hstate]
    simp [hnil]
  · have hfilter : st.versions.filter (fun v => v.stage = Stage.production) = [] := by
      simp only [List.filter_eq_nil_iff, decide_eq_true_eq]
      exact h
    simp only [register_model, bind, Except.bind, pure, Except.pure,
      get_latest_versions, if_neg hnil, hfilter, List.getLast?_nil]
    rw [hstate]
    simp

/-- C1 -/
theorem register_model_true_iff (run : Run) (st : TrackingState)
    (st' : TrackingState) (b : Bool)
    (h : register_model run st Option.none = Except.ok (st', b)) :
    b = true ↔
      (productionBaseline st = Option.none ∨
        ∃ v pr base cand,
          productionBaseline st = some v ∧
          get_run st v.run_id = Except.ok pr ∧
          pr.getMetric "test_rmse" = some base ∧
          run.getMetric "test_rmse" = some cand ∧
          cand < base) := by
  unfold register_model at h
  simp only [bind, Except.bind, pure, Except.pure] at h
  by_cases hnil : st.versions = []
  · simp only [get_latest_versions, if_pos hnil, PyError.isRest, List.getLast?_nil] at h
    simp only [Except.ok.injEq, Prod.mk.injEq, if_pos trivial] at h
    refine ⟨fun _ => Or.inl ?_, fun _ => h.2.symm⟩
    simp [productionBaseline, hnil]
  · simp only [get_latest_versions, if_neg hnil] at h
    rcases hlast : (st.versions.filter (fun v => v.stage = Stage.production)).getLast? with
      _ | latest
    · simp only [hlast, if_pos trivial, Except.ok.injEq, Prod.mk.injEq] at h
      refine ⟨fun _ => Or.inl ?_, fun _ => h.2.symm⟩
      simp [productionBaseline, hlast]
    · have hbase : productionBaseline st = some latest := hlast
      simp only [hlast] at h
      rcases hrun : get_run st latest.run_id with e | pr
      · simp only [hrun] at h
        exact Except.noConfusion h
      · simp only [hrun] at h
        rcases hprm : pr.getMetric "test_rmse" with _ | base
        · simp only [hprm] at h
          exact Except.noConfusion h
        · simp only [hprm] at h
          rcases hcand : run.getMetric "test_rmse" with _ | cand
          · simp only [hcand] at h
            exact Except.noConfusion h
          · simp only [hcand] at h
            by_cases hlt : cand < base
            · rw [if_pos (decide_eq_true hlt)] at h
              simp only [Except.ok.injEq, Prod.mk.injEq] at h
              exact ⟨fun _ => Or.inr ⟨latest, pr, base, cand, hbase, hrun, hprm, rfl, hlt⟩,
                fun _ => h.2.symm⟩
            · rw [if_neg (fun hd => hlt (of_decide_eq_true hd))] at h
              simp only [Except.ok.injEq, Prod.mk.injEq] at h
              constructor
              · intro hb
                rw [← h.2] at hb
                exact absurd hb (by simp)
              · rintro (hnone | ⟨v, pr', base', cand', hv, hr, hm, hc, hlt'⟩)
                · rw [hbase] at hnone
                  exact Option.noConfusion hnone
                · rw [hbase] at hv
                  obtain rfl : latest = v := by injection hv
                  rw [hrun] at hr
                  obtain rfl : pr = pr' := by injection hr
                  rw [hprm] at hm
                  obtain rfl : base = base' := by injection hm
                  obtain rfl : cand = cand' := by injection hc
                  exact absurd hlt' hlt

/-- C2 -/
theorem register_model_rest_catch (run : Run) (st : TrackingState) (e : PyError) :
    (e.isRest = false → register_model run st (some e) = Except.error e) ∧
    (e.isRest = true → ∃ st', register_model run st (some e) = Except.ok (st', true)) := by
  constructor
  · intro hr
    simp [register_model, bind, Except.bind, pure, Except.pure, hr]
  · intro hr
    exact ⟨transitionStage (registerVersion st run).1
        (registerVersion st run).2.version Stage.staging,
      by simp [register_model, bind, Except.bind, pure, Except.pure, hr]⟩

/-- A candidate run whose `rmse`, `validation_rmse` and `test_rmse`
metrics take the given values (for the metric-name invariant). -/
def c6Candidate (rmse validation test : ℚ) : Run :=
  { info := { run_id := "candidate" }
    data :=
      { tags := []
        params := []
        metrics :=
          [("rmse", rmse), ("validation_rmse", validation), ("test_rmse", test)] } }

/-- A registry state holding exactly one `Production` version, produced
by a run whose `rmse`, `validation_rmse` and `test_rmse` metrics take
the given values (for the metric-name invariant). -/
def c6State (rmse validation test : ℚ) : TrackingState :=
  { versions :=
      [{ version := 1, stage := Stage.production, run_id := "production",
         source := "runs:/production/model", tags := [] }]
    runs :=
      [{ info := { run_id := "production" }
         data :=
           { tags := []
             params := []
             metrics :=
               [("rmse", rmse), ("validation_rmse", validation),
                ("test_rmse", test)] } }] }

/-- C6 -/
theorem register_model_compares_test_rmse (a b c d tB tC : ℚ) :
    ∃ st', register_model (c6Candidate c d tC) (c6State a b tB) Option.none
        = Except.ok (st', decide (tC < tB)) := by
  by_cases hlt : tC < tB
  · refine ⟨transitionStage (registerVersion (c6State a b tB) (c6Candidate c d tC)).1
        (registerVersion (c6State a b tB) (c6Candidate c d tC)).2.version
        Stage.staging, ?_⟩
    rw [decide_eq_true hlt]
    simp [register_model, bind, Except.bind, pure, Except.pure, get_latest_versions,
      get_run, Run.getMetric, List.lookup, c6Candidate, c6State, decide_eq_true hlt]
  · refine ⟨c6State a b tB, ?_⟩
    rw [decide_eq_false hlt]
    simp [register_model, bind, Except.bind, pure, Except.pure, get_latest_versions,
      get_run, Run.getMetric, List.lookup, c6Candidate, c6State, decide_eq_false hlt]

/-! ## Concrete scenario used by the witnesses -/

/-- A candidate run with `test_rmse = 4`, better than the baseline. -/
def wCandidate : Run :=
  { info := { run_id := "cand" }
    data :=
      { tags := [("model", "xgboost-regressor")]
        params := []
        metrics := [("test_rmse", 4)] } }

/-- A candidate run with `test_rmse = 5`, equal to the baseline. -/
def wCandidateEq : Run :=
  { info := { run_id := "cand-eq" }
    data :=
      { tags := [("model", "xgboost-regressor")]
        params := []
        metrics := [("test_rmse", 5)] } }

/-- The run behind the current production version, `test_rmse = 5`. -/
def wProductionRun : Run :=
  { info := { run_id := "prod" }
    data := { tags := [], params := [], metrics := [("test_rmse", 5)] } }

/-- The current production version. -/
def wProdVersion : ModelVersion :=
  { version := 1, stage := Stage.production, run_id := "prod",
    source := "runs:/prod/model", tags := [] }

/-- A registry state with one `Production` version whose run is stored. -/
def wState : TrackingState :=
  { versions := [wProdVersion], runs := [wProductionRun] }

/-- A registry state with no version at all. -/
def wEmptyState : TrackingState := { versions := [], runs := [] }

/-- `wState` after the better candidate has been registered and staged. -/
def wStatePromoted : TrackingState :=
  { versions := [wProdVersion, stagedVersion wState wCandidate]
    runs := [wProductionRun] }

/-- C1 witness -/
theorem register_model_true_iff_witness :
    true = true ↔
      (productionBaseline wState = Option.none ∨
        ∃ v pr base cand,
          productionBaseline wState = some v ∧
          get_run wState v.run_id = Except.ok pr ∧
          pr.getMetric "test_rmse" = some base ∧
          wCandidate.getMetric "test_rmse" = some cand ∧
          cand < base) :=
  register_model_true_iff wCandidate wState wStatePromoted true (by decide)

/-- C2 witness -/
theorem register_model_rest_catch_witness :
    register_model wCandidateEq wState (some (PyError.mlflowOther "unreachable"))
      = Except.error (PyError.mlflowOther "unreachable") :=
  (register_model_rest_catch wCandidateEq wState
    (PyError.mlflowOther "unreachable")).1 rfl

/-- C2 counterexample: a REST-layer failure of the baseline lookup whose
code is not `RESOURCE_DOES_NOT_EXIST` (an internal server error, say) is
swallowed by the broad `except RestException` clause and interpreted as
"no production baseline": with a production baseline present and an
equal-performing candidate, `register_model` registers and returns true
instead of propagating the error. -/
theorem register_model_broad_catch_cex :
    PyError.isRest (PyError.restException "INTERNAL_ERROR") = true ∧
    PyError.restException "INTERNAL_ERROR"
      ≠ PyError.restException "RESOURCE_DOES_NOT_EXIST" ∧
    register_model wCandidateEq wState
        (some (PyError.restException "INTERNAL_ERROR"))
      ≠ Except.error (PyError.restException "INTERNAL_ERROR") ∧
    register_model wCandidateEq wState
        (some (PyError.restException "INTERNAL_ERROR"))
      = Except.ok
          ({ versions := [wProdVersion, stagedVersion wState wCandidateEq]
             runs := [wProductionRun] }, true) := by
  decide

/-- C3 witness -/
theorem register_model_no_baseline_witness :
    register_model wCandidate wEmptyState Option.none =
      Except.ok
        ({ wEmptyState with
            versions := wEmptyState.versions ++ [stagedVersion wEmptyState wCandidate] },
          true) :=
  register_model_no_baseline wCandidate wEmptyState (by decide)

/-- C4 witness -/
theorem register_model_false_noop_witness :
    register_model wCandidateEq wState Option.none = Except.ok (wState, false) ∧
      wState = wState :=
  ⟨by decide, register_model_false_noop wCandidateEq wState Option.none wState (by decide)⟩

/-- C5 witness -/
theorem register_model_only_staging_witness :
    wStatePromoted.versions = wState.versions ++ [stagedVersion wState wCandidate] := by
  rcases register_model_only_staging wCandidate wState Option.none wStatePromoted true
      (by decide) with hl | ⟨v, hs, hv⟩
  · exact absurd hl (by decide)
  · have h2 : wStatePromoted.versions
        = wState.versions ++ [stagedVersion wState wCandidate] := by decide
    rw [h2] at hv
    have h3 : stagedVersion wState wCandidate = v := by
      have h4 : [stagedVersion wState wCandidate] = [v] := List.append_cancel_left hv
      injection h4
    exact h2.trans (by rw [h3])

/-! ## Selection (`select_model`) -/

/-- The head of a `max_results=1` search is a member of the experiment
and minimal for the requested metric order. -/
lemma searchRuns_head_min (m : String) (l : List Run) (b : Run) (rest : List Run)
    (h : searchRuns m 1 l = b :: rest) : b ∈ l ∧ ∀ r ∈ l, runLE m b r := by
  unfold searchRuns at h
  rcases hs : List.insertionSort (runLE m) l with _ | ⟨b', t⟩
  · rw [hs] at h
    exact List.noConfusion h
  · rw [hs] at h
    simp only [List.take_succ_cons, List.take_zero] at h
    obtain ⟨rfl, -⟩ : b' = b ∧ ([] : List Run) = rest := by
      injection h with h1 h2
      exact ⟨h1, h2⟩
    have hperm := List.perm_insertionSort (runLE m) l
    rw [hs] at hperm
    have hsorted := List.sorted_insertionSort (runLE m) l
    rw [hs] at hsorted
    constructor
    · exact hperm.subset (List.mem_cons_self _ _)
    · intro r hr
      rcases List.mem_cons.mp (hperm.mem_iff.mpr hr) with rfl | hrt
      · exact le_refl (runKey m r)
      · exact (List.pairwise_cons.mp hsorted).1 r hrt

/-- C8 -/
theorem select_model_best (hpoRuns : List Run) (n : Nat) (selectRuns : List Run)
    (oracle : Oracle) (fresh : Nat → String) (all : List Run) (best : Run)
    (h : select_model hpoRuns n selectRuns oracle fresh = Except.ok (all, best)) :
    best ∈ all ∧ ∀ r ∈ all, runLE "test_rmse" best r := by
  unfold select_model at h
  simp only [bind, Except.bind, pure, Except.pure] at h
  rcases hev : evalCandidates oracle fresh 0 (searchRuns "rmse" n hpoRuns) with e | new_runs
  · simp only [hev] at h
    exact Except.noConfusion h
  · simp only [hev] at h
    rcases hsr : searchRuns "test_rmse" 1 (selectRuns ++ new_runs) with _ | ⟨b0, rest⟩
    · simp only [hsr] at h
      exact Except.noConfusion h
    · simp only [hsr] at h
      simp only [Except.ok.injEq, Prod.mk.injEq] at h
      obtain ⟨rfl, rfl⟩ : selectRuns ++ new_runs = all ∧ b0 = best := h
      exact searchRuns_head_min "test_rmse" _ _ _ hsr

/-- C7 -/
theorem select_model_top_candidates (hpoRuns : List Run) (n : Nat) :
    (searchRuns "rmse" n hpoRuns).length ≤ n ∧
    (searchRuns "rmse" n hpoRuns).Sorted (runLE "rmse") ∧
    (∃ rest, (searchRuns "rmse" n hpoRuns ++ rest).Perm hpoRuns ∧
        ∀ a ∈ searchRuns "rmse" n hpoRuns, ∀ b ∈ rest, runLE "rmse" a b) ∧
    ∀ selectRuns oracle fresh all best,
      select_model hpoRuns n selectRuns oracle fresh = Except.ok (all, best) →
      ∃ new_runs,
        evalCandidates oracle fresh 0 (searchRuns "rmse" n hpoRuns)
          = Except.ok new_runs ∧
        all = selectRuns ++ new_runs := by
  refine ⟨List.length_take_le n _, ?_, ?_, ?_⟩
  · exact (List.sorted_insertionSort (runLE "rmse") hpoRuns).sublist
      (List.take_sublist n _)
  · refine ⟨(List.insertionSort (runLE "rmse") hpoRuns).drop n, ?_, ?_⟩
    · rw [searchRuns, List.take_append_drop]
      exact List.perm_insertionSort (runLE "rmse") hpoRuns
    · have hsorted := List.sorted_insertionSort (runLE "rmse") hpoRuns
      rw [← List.take_append_drop n (List.insertionSort (runLE "rmse") hpoRuns)]
        at hsorted
      exact (List.pairwise_append.mp hsorted).2.2
  · intro selectRuns oracle fresh all best h
    unfold select_model at h
    simp only [bind, Except.bind, pure, Except.pure] at h
    rcases hev : evalCandidates oracle fresh 0 (searchRuns "rmse" n hpoRuns)
      with e | new_runs
    · simp only [hev] at h
      exact Except.noConfusion h
    · simp only [hev] at h
      rcases hsr : searchRuns "test_rmse" 1 (selectRuns ++ new_runs)
        with _ | ⟨b0, rest⟩
      · simp only [hsr] at h
        exact Except.noConfusion h
      · simp only [hsr] at h
        simp only [Except.ok.injEq, Prod.mk.injEq] at h
        exact ⟨new_runs, rfl, h.1.symm⟩

/-- The per-run record shape produced by the evaluation loop: the new
run carries the source run's `model` family as its single tag and
exactly the two explicitly logged metrics. -/
def evaluatedAs (src nr : Run) : Prop :=
  ∃ fam,
    src.data.tags.lookup "model" = some fam ∧
    nr.data.tags = [("model", fam)] ∧
    nr.data.metrics.map Prod.fst = ["validation_rmse", "test_rmse"]

/-- A successful evaluation loop produces exactly one new run per
candidate, pointwise of the shape `evaluatedAs`. -/
lemma evalCandidates_forall₂ (oracle : Oracle) (fresh : Nat → String) :
    ∀ (rs : List Run) (i : Nat) (out : List Run),
      evalCandidates oracle fresh i rs = Except.ok out →
      List.Forall₂ evaluatedAs rs out := by
  intro rs
  induction rs with
  | nil =>
      intro i out h
      simp only [evalCandidates] at h
      obtain rfl : ([] : List Run) = out := by injection h
      exact List.Forall₂.nil
  | cons r rs ih =>
      intro i out h
      simp only [evalCandidates, bind, Except.bind, pure, Except.pure] at h
      rcases htag : r.data.tags.lookup "model" with _ | tag
      · simp only [htag] at h
        exact Except.noConfusion h
      · simp only [htag] at h
        rcases hf : TRAIN_AND_LOG_FUNC.lookup tag with _ | f
        · simp only [hf] at h
          exact Except.noConfusion h
        · simp only [hf] at h
          rcases hrest : evalCandidates oracle fresh (i + 1) rs with e | out'
          · simp only [hrest] at h
            exact Except.noConfusion h
          · simp only [hrest] at h
            obtain rfl : f oracle (fresh i) r.data.params :: out' = out := by
              injection h
            refine List.Forall₂.cons ?_ (ih (i + 1) out' hrest)
            by_cases h1 : tag = "xgboost-regressor"
            · subst h1
              obtain rfl : f = train_and_log_xgboost := by
                simp only [TRAIN_AND_LOG_FUNC, List.lookup] at hf
                simpa using hf.symm
              exact ⟨"xgboost-regressor", htag, rfl, rfl⟩
            · by_cases h2 : tag = "random-forest-regressor"
              · subst h2
                obtain rfl : f = train_and_log_train_random_forest_regressor := by
                  simp only [TRAIN_AND_LOG_FUNC, List.lookup] at hf
                  simpa using hf.symm
                exact ⟨"random-forest-regressor", htag, rfl, rfl⟩
              · exfalso
                have hb1 : (tag == "xgboost-regressor") = false :=
                  beq_eq_false_iff_ne.mpr h1
                have hb2 : (tag == "random-forest-regressor") = false :=
                  beq_eq_false_iff_ne.mpr h2
                simp only [TRAIN_AND_LOG_FUNC, List.lookup, hb1, hb2] at hf
                exact Option.noConfusion hf

/-- C9 -/
theorem select_model_logged_runs (hpoRuns : List Run) (n : Nat)
    (selectRuns : List Run) (oracle : Oracle) (fresh : Nat → String)
    (all : List Run) (best : Run)
    (h : select_model hpoRuns n selectRuns oracle fresh = Except.ok (all, best)) :
    ∃ new_runs,
      all = selectRuns ++ new_runs ∧
      List.Forall₂ evaluatedAs (searchRuns "rmse" n hpoRuns) new_runs := by
  unfold select_model at h
  simp only [bind, Except.bind, pure, Except.pure] at h
  rcases hev : evalCandidates oracle fresh 0 (searchRuns "rmse" n hpoRuns)
    with e | new_runs
  · simp only [hev] at h
    exact Except.noConfusion h
  · simp only [hev] at h
    rcases hsr : searchRuns "test_rmse" 1 (selectRuns ++ new_runs)
      with _ | ⟨b0, rest⟩
    · simp only [hsr] at h
      exact Except.noConfusion h
    · simp only [hsr] at h
      simp only [Except.ok.injEq, Prod.mk.injEq] at h
      exact ⟨new_runs, h.1.symm, evalCandidates_forall₂ oracle fresh _ 0 new_runs hev⟩

/-- A candidate whose dispatch fails makes the whole loop fail. -/
lemma evalCandidates_error_of_unknown (oracle : Oracle) (fresh : Nat → String) :
    ∀ (rs : List Run) (i : Nat) (r : Run), r ∈ rs →
      (r.data.tags.lookup "model").bind (fun tag => TRAIN_AND_LOG_FUNC.lookup tag)
          = Option.none →
      ∃ e, evalCandidates oracle fresh i rs = Except.error e := by
  intro rs
  induction rs with
  | nil =>
      intro i r hr
      cases hr
  | cons a rs ih =>
      intro i r hr hd
      simp only [evalCandidates, bind, Except.bind, pure, Except.pure]
      rcases htag : a.data.tags.lookup "model" with _ | tag
      · exact ⟨.keyError "model", by simp [htag]⟩
      · rcases hf : TRAIN_AND_LOG_FUNC.lookup tag with _ | f
        · exact ⟨.keyError tag, by simp [htag, hf]⟩
        · rcases List.mem_cons.mp hr with rfl | hrt
          · rw [htag] at hd
            simp only [Option.some_bind] at hd
            rw [hf] at hd
            exact Option.noConfusion hd
          · obtain ⟨e, he⟩ := ih (i + 1) r hrt hd
            exact ⟨e, by simp [htag, hf, he]⟩

/-- C10 -/
theorem select_model_unknown_family (hpoRuns : List Run) (n : Nat)
    (selectRuns : List Run) (oracle : Oracle) (fresh : Nat → String)
    (r : Run) (tag : String)
    (hmem : r ∈ searchRuns "rmse" n hpoRuns)
    (htag : r.data.tags.lookup "model" = some tag)
    (hunk : TRAIN_AND_LOG_FUNC.lookup tag = Option.none) :
    ∃ e, select_model hpoRuns n selectRuns oracle fresh = Except.error e := by
  obtain ⟨e, he⟩ := evalCandidates_error_of_unknown oracle fresh
    (searchRuns "rmse" n hpoRuns) 0 r hmem (by rw [htag, Option.some_bind, hunk])
  exact ⟨e, by simp [select_model, bind, Except.bind, pure, Except.pure, he]⟩

/-! ## Concrete end-to-end scenario (5 HPO runs, 3 xgboost + 2 random
forest) used by the selection witnesses -/

/-- An HPO-experiment run with a `model` family tag, one logged
parameter and its optimization `rmse`. -/
def wHpoRun (id fam : String) (rmse : ℚ) : Run :=
  { info := { run_id := id }
    data :=
      { tags := [("model", fam)]
        params := [("p", id)]
        metrics := [("rmse", rmse)] } }

/-- Five completed HPO runs: three xgboost, two random forest. -/
def wHpo5 : List Run :=
  [wHpoRun "a" "xgboost-regressor" 3,
   wHpoRun "b" "random-forest-regressor" 1,
   wHpoRun "c" "xgboost-regressor" 2,
   wHpoRun "d" "random-forest-regressor" 5,
   wHpoRun "e" "xgboost-regressor" 4]

/-- Training outcomes for the scenario: the configuration of run `c`
achieves the lowest test RMSE. -/
def wOracle : Oracle := fun fam ps =>
  if ps.lookup "p" = some "c" then (1, 3)
  else if fam = "xgboost-regressor" then (1, 7)
  else (2, 6)

/-- Run identifiers the tracking service hands out in the scenario. -/
def wFresh : Nat → String := fun i => "new" ++ toString i

/-- An evaluated-candidate run as created by the training routines. -/
def wEval (fresh_id src_id fam : String) (v t : ℚ) : Run :=
  { info := { run_id := fresh_id }
    data :=
      { tags := [("model", fam)]
        params := [("p", src_id)]
        metrics := [("validation_rmse", v), ("test_rmse", t)] } }

def wNew0 : Run := wEval "new0" "b" "random-forest-regressor" 2 6

def wNew1 : Run := wEval "new1" "c" "xgboost-regressor" 1 3

def wNew2 : Run := wEval "new2" "a" "xgboost-regressor" 1 7

def wNew3 : Run := wEval "new3" "e" "xgboost-regressor" 1 7

def wNew4 : Run := wEval "new4" "d" "random-forest-regressor" 2 6

/-- The selection experiment's final run list in the scenario. -/
def wAll : List Run := [wNew0, wNew1, wNew2, wNew3, wNew4]

/-- The winning run of the scenario (minimum `test_rmse`, namely 3). -/
def wBest : Run := wNew1

/-- C7 witness -/
theorem select_model_top_candidates_witness :
    (searchRuns "rmse" 5 wHpo5).length ≤ 5 ∧
    evalCandidates wOracle wFresh 0 (searchRuns "rmse" 5 wHpo5) = Except.ok wAll := by
  obtain ⟨new_runs, hev, hall⟩ :=
    (select_model_top_candidates wHpo5 5).2.2.2 [] wOracle wFresh wAll wBest (by decide)
  obtain rfl : new_runs = wAll := by simpa using hall.symm
  exact ⟨(select_model_top_candidates wHpo5 5).1, hev⟩

/-- C8 witness -/
theorem select_model_best_witness :
    wBest ∈ wAll ∧ runLE "test_rmse" wBest wNew0 := by
  have h := select_model_best wHpo5 5 [] wOracle wFresh wAll wBest (by decide)
  exact ⟨h.1, h.2 wNew0 (by decide)⟩

/-- C9 witness -/
theorem select_model_logged_runs_witness :
    wNew0.data.tags = [("model", "random-forest-regressor")] ∧
    wNew0.data.metrics.map Prod.fst = ["validation_rmse", "test_rmse"] ∧
    wAll.length = (searchRuns "rmse" 5 wHpo5).length := by
  obtain ⟨new_runs, hall, hf⟩ :=
    select_model_logged_runs wHpo5 5 [] wOracle wFresh wAll wBest (by decide)
  obtain rfl : new_runs = wAll := by simpa using hall.symm
  have hlen := hf.length_eq.symm
  have htops : searchRuns "rmse" 5 wHpo5
      = wHpoRun "b" "random-forest-regressor" 1 ::
        [wHpoRun "c" "xgboost-regressor" 2, wHpoRun "a" "xgboost-regressor" 3,
         wHpoRun "e" "xgboost-regressor" 4,
         wHpoRun "d" "random-forest-regressor" 5] := by decide
  rw [htops] at hf
  have hall2 : wAll = wNew0 :: [wNew1, wNew2, wNew3, wNew4] := rfl
  rw [hall2] at hf
  rcases hf with _ | ⟨hp, -⟩
  obtain ⟨fam, h1, h2, h3⟩ := hp
  have hcomp : (wHpoRun "b" "random-forest-regressor" 1).data.tags.lookup "model"
      = some "random-forest-regressor" := by decide
  rw [hcomp] at h1
  obtain rfl : "random-forest-regressor" = fam := by injection h1
  exact ⟨h2, h3, hlen⟩

/-- A source run tagged with a family outside the dispatch table. -/
def wUnknownRun : Run :=
  { info := { run_id := "z" }
    data :=
      { tags := [("model", "linear-regression")]
        params := []
        metrics := [("rmse", 1)] } }

/-- C10 witness -/
theorem select_model_unknown_family_witness :
    select_model [wUnknownRun] 1 [] wOracle wFresh
      = Except.error (PyError.keyError "linear-regression") := by
  obtain ⟨e, he⟩ := select_model_unknown_family [wUnknownRun] 1 [] wOracle wFresh
    wUnknownRun "linear-regression" (by decide) (by decide) rfl
  have hc : select_model [wUnknownRun] 1 [] wOracle wFresh
      = Except.error (PyError.keyError "linear-regression") := by decide
  exact hc

end SelectAndRegister
